import Mathlib

/-!
Shallow embedding of `src/generate.py` from the TopiSkiJump repository.

The Python source implements a projectile trajectory (`SkiJump`) over a
linear hill (`Hill`).  `Hill.y` and `SkiJump.y` are implemented in the
source and are embedded here directly; the methods `SkiJump.landing` and
`SkiJump.sample` are unimplemented stubs in the source (they raise
`NotImplementedError` / return empty placeholder arrays), so they are
modelled from the specification's contract (see the doc comments of the
corresponding definitions).

Python floats are modelled as real numbers; `numpy.tan` / `numpy.cos`
become `Real.tan` / `Real.cos`.
-/

namespace TopiSkiJump

open scoped Classical

noncomputable section

/-- `EARTH_GRAVITY = 1.0  # [a.u.]` -/
def EARTH_GRAVITY : ℝ := 1.0

/-- The hill from which the jumpers fly off (frozen dataclass with two
real fields). -/
structure Hill where
  offset : ℝ
  slope : ℝ
deriving DecidableEq

/-- `Hill.y`: `return self.offset + self.slope * x`. -/
def Hill.y (self : Hill) (x : ℝ) : ℝ :=
  self.offset + self.slope * x

/-- `HILL = Hill(offset=-2.0, slope=-1.0)`. -/
def HILL : Hill := { offset := -2.0, slope := -1.0 }

/-- The true jumping trajectory (frozen dataclass with two real
fields). -/
structure SkiJump where
  v0 : ℝ
  alpha : ℝ
deriving DecidableEq

/-- The raw trajectory value computed in `SkiJump.y` before the
epsilon snap:
`np.tan(self.alpha) * x - 0.5 * (1 / (self.v0 * np.cos(self.alpha)) ** 2 * EARTH_GRAVITY * x**2)`. -/
def SkiJump.yRaw (self : SkiJump) (x : ℝ) : ℝ :=
  Real.tan self.alpha * x -
    0.5 * (1 / (self.v0 * Real.cos self.alpha) ^ 2 * EARTH_GRAVITY * x ^ 2)

/-- `SkiJump.y`: the raw value, snapped to `0.0` when it lies strictly
between `-1e-8` and `1e-8`
(`if y_value < 1e-8 and y_value > -1e-8: return 0.0`). -/
def SkiJump.y (self : SkiJump) (x : ℝ) : ℝ :=
  if self.yRaw x < 1e-8 ∧ self.yRaw x > -1e-8 then 0.0 else self.yRaw x

/-- Error taxonomy of the specification (§7) relevant to `landing` and
`sample`. -/
inductive GenError
  | NoIntersectionError
  | InvalidArgumentError
deriving DecidableEq

/-- Modelled from the spec: leading coefficient `a` of the quadratic
`a*x^2 + b*x + c = 0` obtained by subtracting the hill line from the
trajectory parabola (`SkiJump.landing` is missing from the source: it
raises `NotImplementedError`). -/
def SkiJump.coeffA (self : SkiJump) : ℝ :=
  -(0.5 * (1 / (self.v0 * Real.cos self.alpha) ^ 2 * EARTH_GRAVITY))

/-- Modelled from the spec: linear coefficient `b` of the quadratic. -/
def SkiJump.coeffB (self : SkiJump) (hill : Hill) : ℝ :=
  Real.tan self.alpha - hill.slope

/-- Modelled from the spec: constant coefficient `c` of the quadratic. -/
def SkiJump.coeffC (hill : Hill) : ℝ :=
  -hill.offset

/-- Modelled from the spec: the discriminant `b^2 - 4*a*c` of the
landing quadratic. -/
def SkiJump.disc (self : SkiJump) (hill : Hill) : ℝ :=
  self.coeffB hill ^ 2 - 4 * self.coeffA * SkiJump.coeffC hill

/-- Modelled from the spec: first closed-form quadratic root
`(-b + sqrt D) / (2a)`. -/
def SkiJump.root1 (self : SkiJump) (hill : Hill) : ℝ :=
  (-self.coeffB hill + Real.sqrt (self.disc hill)) / (2 * self.coeffA)

/-- Modelled from the spec: second closed-form quadratic root
`(-b - sqrt D) / (2a)`. -/
def SkiJump.root2 (self : SkiJump) (hill : Hill) : ℝ :=
  (-self.coeffB hill - Real.sqrt (self.disc hill)) / (2 * self.coeffA)

/-- Modelled from the spec: `SkiJump.landing` is missing from the source
(`raise NotImplementedError()`); per §4.3 it solves
`SkiJump.y(x) = Hill.y(x)` analytically with the closed-form quadratic
formula, falls back to the linear solution when the leading coefficient
is zero, returns the non-zero root, and fails with
`NoIntersectionError` when the discriminant is negative or the only
root is the trivial one at `x = 0`. -/
def SkiJump.landing (self : SkiJump) (hill : Hill) : Except GenError ℝ :=
  if self.coeffA = 0 then
    if self.coeffB hill ≠ 0 ∧ -SkiJump.coeffC hill / self.coeffB hill ≠ 0 then
      .ok (-SkiJump.coeffC hill / self.coeffB hill)
    else .error .NoIntersectionError
  else if self.disc hill < 0 then .error .NoIntersectionError
  else if self.root1 hill ≠ 0 then .ok (self.root1 hill)
  else if self.root2 hill ≠ 0 then .ok (self.root2 hill)
  else .error .NoIntersectionError

/-- Modelled from the spec: part of `SkiJump.sample`, which is missing
from the source (its body is a placeholder returning empty arrays); per
§4.4 sampling generates `n` equally spaced x-coordinates spanning the
closed interval between `0` and `landing_x` inclusive (the single point
`0` when `n == 1`).  This definition is the
`numpy.linspace(0, xL, n)` part: point `i` is `i * xL / (n - 1)`; for
`n == 1` the division by zero is junk-valued `0`, giving the single
point `0` as the spec requires. -/
def linspace0 (xL : ℝ) (n : ℤ) : List ℝ :=
  (List.range n.toNat).map fun i : ℕ => (i : ℝ) * xL / ((n : ℝ) - 1)

/-- Modelled from the spec: the `sample` method (its body in the source
is a placeholder returning empty arrays); per §4.4 it fails with
`InvalidArgumentError` when `n < 1`, computes the landing point,
propagating its error, and returns the linspace points paired with
their `y` values. -/
def SkiJump.sample (self : SkiJump) (hill : Hill) (n : ℤ) :
    Except GenError (List ℝ × List ℝ) :=
  if n < 1 then .error .InvalidArgumentError
  else
    match self.landing hill with
    | .error e => .error e
    | .ok xL => .ok (linspace0 xL n, (linspace0 xL n).map self.y)

/-- Method-call form of `Hill.y`, returning the receiver alongside the
result; the Python method reads `self.offset` and `self.slope` and
performs no assignment, so the receiver is returned unchanged. -/
def Hill.yCall (self : Hill) (x : ℝ) : Hill × ℝ :=
  (self, self.y x)

/-- Method-call form of `SkiJump.y` (no assignment in the source body;
the receiver is returned unchanged). -/
def SkiJump.yCall (self : SkiJump) (x : ℝ) : SkiJump × ℝ :=
  (self, self.y x)

/-- Method-call form of `SkiJump.landing`, returning receiver and
argument alongside the result. -/
def SkiJump.landingCall (self : SkiJump) (hill : Hill) :
    SkiJump × Hill × Except GenError ℝ :=
  (self, hill, self.landing hill)

/-- Method-call form of `SkiJump.sample`, returning receiver and
argument alongside the result. -/
def SkiJump.sampleCall (self : SkiJump) (hill : Hill) (n : ℤ) :
    SkiJump × Hill × Except GenError (List ℝ × List ℝ) :=
  (self, hill, self.sample hill n)

end

/-! ### Helper lemmas -/

/-- The difference between trajectory and hill is the landing
quadratic. -/
theorem yRaw_sub_hill (s : SkiJump) (hill : Hill) (x : ℝ) :
    s.yRaw x - hill.y x =
      s.coeffA * x ^ 2 + s.coeffB hill * x + SkiJump.coeffC hill := by
  simp only [SkiJump.yRaw, Hill.y, SkiJump.coeffA, SkiJump.coeffB,
    SkiJump.coeffC, EARTH_GRAVITY]
  ring

/-- The trajectory's quadratic leading coefficient is negative (hence
nonzero) when `v0 ≠ 0` and `cos alpha ≠ 0`. -/
theorem coeffA_neg (s : SkiJump) (hv : s.v0 ≠ 0) (hc : Real.cos s.alpha ≠ 0) :
    s.coeffA < 0 := by
  have h : s.v0 * Real.cos s.alpha ≠ 0 := mul_ne_zero hv hc
  have h2 : 0 < (s.v0 * Real.cos s.alpha) ^ 2 :=
    lt_of_le_of_ne (sq_nonneg _) (Ne.symm (pow_ne_zero 2 h))
  have h3 : 0 < 1 / (s.v0 * Real.cos s.alpha) ^ 2 := one_div_pos.2 h2
  simp only [SkiJump.coeffA, EARTH_GRAVITY]
  nlinarith

/-- The trajectory value at the origin is `0` (the raw value is `0` and
lies in the snap band). -/
theorem y_zero (s : SkiJump) : s.y 0 = 0 := by
  have h0 : s.yRaw 0 = 0 := by
    simp only [SkiJump.yRaw]
    ring
  rw [SkiJump.y, h0]
  split <;> norm_num

/-- The first closed-form root solves `yRaw x = hill.y x`. -/
theorem root1_is_root (s : SkiJump) (hill : Hill) (ha : s.coeffA ≠ 0)
    (hD : 0 ≤ s.disc hill) :
    s.yRaw (s.root1 hill) = hill.y (s.root1 hill) := by
  have hdis : discrim s.coeffA (s.coeffB hill) (SkiJump.coeffC hill)
      = Real.sqrt (s.disc hill) * Real.sqrt (s.disc hill) :=
    (Real.mul_self_sqrt hD).symm
  have key := (quadratic_eq_zero_iff ha hdis (s.root1 hill)).2 (Or.inl rfl)
  have h2 := yRaw_sub_hill s hill (s.root1 hill)
  have h3 : s.yRaw (s.root1 hill) - hill.y (s.root1 hill) = 0 := by
    rw [h2]
    linear_combination key
  exact sub_eq_zero.1 h3

/-- The second closed-form root solves `yRaw x = hill.y x`. -/
theorem root2_is_root (s : SkiJump) (hill : Hill) (ha : s.coeffA ≠ 0)
    (hD : 0 ≤ s.disc hill) :
    s.yRaw (s.root2 hill) = hill.y (s.root2 hill) := by
  have hdis : discrim s.coeffA (s.coeffB hill) (SkiJump.coeffC hill)
      = Real.sqrt (s.disc hill) * Real.sqrt (s.disc hill) :=
    (Real.mul_self_sqrt hD).symm
  have key := (quadratic_eq_zero_iff ha hdis (s.root2 hill)).2 (Or.inr rfl)
  have h2 := yRaw_sub_hill s hill (s.root2 hill)
  have h3 : s.yRaw (s.root2 hill) - hill.y (s.root2 hill) = 0 := by
    rw [h2]
    linear_combination key
  exact sub_eq_zero.1 h3

/-- The linear fallback solution solves `yRaw x = hill.y x` when the
leading coefficient vanishes. -/
theorem linear_sol_is_root (s : SkiJump) (hill : Hill) (ha : s.coeffA = 0)
    (hb : s.coeffB hill ≠ 0) :
    s.yRaw (-SkiJump.coeffC hill / s.coeffB hill)
      = hill.y (-SkiJump.coeffC hill / s.coeffB hill) := by
  have h2 := yRaw_sub_hill s hill (-SkiJump.coeffC hill / s.coeffB hill)
  rw [ha] at h2
  have h3 : s.yRaw (-SkiJump.coeffC hill / s.coeffB hill)
      - hill.y (-SkiJump.coeffC hill / s.coeffB hill) = 0 := by
    rw [h2]
    field_simp
    ring
  exact sub_eq_zero.1 h3

/-- At an exact raw intersection, the snapped trajectory height is
within `1e-6` of the hill height (the snap moves it by less than
`1e-8`). -/
theorem y_close_of_yRaw_eq (s : SkiJump) (hill : Hill) (r : ℝ)
    (h : s.yRaw r = hill.y r) : |s.y r - hill.y r| < 1e-6 := by
  rw [SkiJump.y]
  split_ifs with hcond
  · rw [← h]
    have habs : |s.yRaw r| < 1e-8 := abs_lt.2 ⟨hcond.2, hcond.1⟩
    rw [show (0.0 : ℝ) = 0 from by norm_num, zero_sub, abs_neg]
    exact habs.trans (by norm_num)
  · rw [h, sub_self, abs_zero]
    norm_num

/-- A successful `landing` returns a nonzero exact raw intersection. -/
theorem landing_ok_props (s : SkiJump) (hill : Hill) (r : ℝ)
    (h : s.landing hill = .ok r) : r ≠ 0 ∧ s.yRaw r = hill.y r := by
  by_cases ha : s.coeffA = 0
  · by_cases hlin : s.coeffB hill ≠ 0 ∧ -SkiJump.coeffC hill / s.coeffB hill ≠ 0
    · rw [SkiJump.landing, if_pos ha, if_pos hlin, Except.ok.injEq] at h
      subst h
      exact ⟨hlin.2, linear_sol_is_root s hill ha hlin.1⟩
    · rw [SkiJump.landing, if_pos ha, if_neg hlin] at h
      exact absurd h (by simp)
  · by_cases hD : s.disc hill < 0
    · rw [SkiJump.landing, if_neg ha, if_pos hD] at h
      exact absurd h (by simp)
    · by_cases h1 : s.root1 hill ≠ 0
      · rw [SkiJump.landing, if_neg ha, if_neg hD, if_pos h1,
          Except.ok.injEq] at h
        subst h
        exact ⟨h1, root1_is_root s hill ha (not_lt.1 hD)⟩
      · by_cases h2 : s.root2 hill ≠ 0
        · rw [SkiJump.landing, if_neg ha, if_neg hD, if_neg h1, if_pos h2,
            Except.ok.injEq] at h
          subst h
          exact ⟨h2, root2_is_root s hill ha (not_lt.1 hD)⟩
        · rw [SkiJump.landing, if_neg ha, if_neg hD, if_neg h1,
            if_neg h2] at h
          exact absurd h (by simp)

/-! ### Claim theorems -/

/-- C4: For every Hill (any offset and slope) and every real `x`,
`Hill.y x` returns exactly `offset + slope * x` (a total function with
no error condition). -/
theorem hill_y_linear (h : Hill) (x : ℝ) : h.y x = h.offset + h.slope * x :=
  rfl

/-- C3: For every SkiJump with `v0 ≠ 0` and `cos alpha ≠ 0` and every
real `x`, `SkiJump.y x` equals
`tan alpha * x - 0.5 * g * x^2 / (v0 * cos alpha)^2` with `g = 1.0`,
except that values within `±1e-8` of zero are snapped exactly to
`0.0`. -/
theorem skijump_y_formula (s : SkiJump) (x : ℝ)
    (hv : s.v0 ≠ 0) (hc : Real.cos s.alpha ≠ 0) :
    s.y x =
      if |Real.tan s.alpha * x - 0.5 * 1.0 * x ^ 2 / (s.v0 * Real.cos s.alpha) ^ 2| < 1e-8
      then 0.0
      else Real.tan s.alpha * x - 0.5 * 1.0 * x ^ 2 / (s.v0 * Real.cos s.alpha) ^ 2 := by
  have hF : s.yRaw x =
      Real.tan s.alpha * x - 0.5 * 1.0 * x ^ 2 / (s.v0 * Real.cos s.alpha) ^ 2 := by
    simp only [SkiJump.yRaw, EARTH_GRAVITY]
    ring
  rw [SkiJump.y, hF]
  exact if_congr ⟨fun h => abs_lt.2 ⟨h.2, h.1⟩,
    fun h => ⟨(abs_lt.1 h).2, (abs_lt.1 h).1⟩⟩ rfl rfl

/-- Witness for C3 at `v0 = 1`, `alpha = 0`, `x = 1`. -/
theorem skijump_y_formula_witness :
    (1 : ℝ) ≠ 0 ∧ Real.cos (0 : ℝ) ≠ 0 ∧
      (SkiJump.mk 1 0).y 1 =
        if |Real.tan (0 : ℝ) * 1 - 0.5 * 1.0 * 1 ^ 2 / ((1 : ℝ) * Real.cos (0 : ℝ)) ^ 2| < 1e-8
        then 0.0
        else Real.tan (0 : ℝ) * 1 - 0.5 * 1.0 * 1 ^ 2 / ((1 : ℝ) * Real.cos (0 : ℝ)) ^ 2 :=
  ⟨one_ne_zero, by rw [Real.cos_zero]; exact one_ne_zero,
    skijump_y_formula ⟨1, 0⟩ 1 one_ne_zero
      (by rw [Real.cos_zero]; exact one_ne_zero)⟩

/-- C8: For every SkiJump with `v0 > 0` and `alpha` away from `±π/2`
(`cos alpha ≠ 0`), `SkiJump.y 0` returns exactly `0.0`. -/
theorem skijump_y_at_zero (s : SkiJump) (hv : 0 < s.v0)
    (hc : Real.cos s.alpha ≠ 0) : s.y 0 = 0 := by
  have h0 : s.yRaw 0 = 0 := by
    simp only [SkiJump.yRaw]
    ring
  rw [SkiJump.y, h0]
  split <;> norm_num

/-- Witness for C8 at `v0 = 1`, `alpha = 0`. -/
theorem skijump_y_at_zero_witness :
    (0 : ℝ) < 1 ∧ Real.cos (0 : ℝ) ≠ 0 ∧ (SkiJump.mk 1 0).y 0 = 0 :=
  ⟨one_pos, by rw [Real.cos_zero]; exact one_ne_zero,
    skijump_y_at_zero ⟨1, 0⟩ one_pos (by rw [Real.cos_zero]; exact one_ne_zero)⟩

/-- C10: For every SkiJump with `v0 ≠ 0` and `cos alpha ≠ 0` and every
`x`, `SkiJump.y x` is either exactly `0` or has absolute value at least
`1e-8`; and the snap band is open: a raw value of absolute value exactly
`1e-8` is returned unchanged. -/
theorem skijump_y_snap_band (s : SkiJump) (x : ℝ)
    (hv : s.v0 ≠ 0) (hc : Real.cos s.alpha ≠ 0) :
    (s.y x = 0 ∨ 1e-8 ≤ |s.y x|) ∧
      (|s.yRaw x| = 1e-8 → s.y x = s.yRaw x) := by
  constructor
  · by_cases hcond : s.yRaw x < 1e-8 ∧ s.yRaw x > -1e-8
    · left
      rw [SkiJump.y, if_pos hcond]
      norm_num
    · right
      rw [SkiJump.y, if_neg hcond]
      rcases not_and_or.1 hcond with h | h
      · exact le_abs.2 (Or.inl (not_lt.1 h))
      · exact le_abs.2 (Or.inr (by have := not_lt.1 h; linarith))
  · intro habs
    have hnc : ¬(s.yRaw x < 1e-8 ∧ s.yRaw x > -1e-8) := by
      rintro ⟨h1, h2⟩
      have h3 : |s.yRaw x| < 1e-8 := abs_lt.2 ⟨h2, h1⟩
      rw [habs] at h3
      exact lt_irrefl _ h3
    rw [SkiJump.y, if_neg hnc]

/-- Witness for C10 at `v0 = 1`, `alpha = 0`, `x = 0`. -/
theorem skijump_y_snap_band_witness :
    (1 : ℝ) ≠ 0 ∧ Real.cos (0 : ℝ) ≠ 0 ∧
      (((SkiJump.mk 1 0).y 0 = 0 ∨ 1e-8 ≤ |(SkiJump.mk 1 0).y 0|) ∧
        (|(SkiJump.mk 1 0).yRaw 0| = 1e-8 →
          (SkiJump.mk 1 0).y 0 = (SkiJump.mk 1 0).yRaw 0)) :=
  ⟨one_ne_zero, by rw [Real.cos_zero]; exact one_ne_zero,
    skijump_y_snap_band ⟨1, 0⟩ 0 one_ne_zero
      (by rw [Real.cos_zero]; exact one_ne_zero)⟩

/-- C6: For every SkiJump, every Hill and every integer `n < 1`,
`SkiJump.sample hill n` fails with `InvalidArgumentError` and produces
no sample sequences. -/
theorem sample_invalid_n (s : SkiJump) (hill : Hill) (n : ℤ) (hn : n < 1) :
    s.sample hill n = .error .InvalidArgumentError := by
  rw [SkiJump.sample, if_pos hn]

/-- Witness for C6 at `n = 0`. -/
theorem sample_invalid_n_witness :
    (0 : ℤ) < 1 ∧
      (SkiJump.mk 1 0).sample ⟨-2, -1⟩ 0 = .error .InvalidArgumentError :=
  ⟨one_pos, sample_invalid_n ⟨1, 0⟩ ⟨-2, -1⟩ 0 one_pos⟩

/-- C9: Hill and SkiJump values are immutable: no method call
(`Hill.y`, `SkiJump.y`, `SkiJump.landing`, `SkiJump.sample`) modifies
the fields `offset`, `slope`, `v0` or `alpha` of its receiver or
arguments; every field holds the same value after any call as before
it.  The bodies of the source methods contain no assignment (and the
dataclasses are frozen), so the method-call forms return the receiver
and arguments unchanged. -/
theorem methods_preserve_fields (h : Hill) (s : SkiJump) (x x' : ℝ) (n : ℤ) :
    (h.yCall x).1.offset = h.offset ∧ (h.yCall x).1.slope = h.slope ∧
    (s.yCall x').1.v0 = s.v0 ∧ (s.yCall x').1.alpha = s.alpha ∧
    (s.landingCall h).1.v0 = s.v0 ∧ (s.landingCall h).1.alpha = s.alpha ∧
    (s.landingCall h).2.1.offset = h.offset ∧
    (s.landingCall h).2.1.slope = h.slope ∧
    (s.sampleCall h n).1.v0 = s.v0 ∧ (s.sampleCall h n).1.alpha = s.alpha ∧
    (s.sampleCall h n).2.1.offset = h.offset ∧
    (s.sampleCall h n).2.1.slope = h.slope :=
  ⟨rfl, rfl, rfl, rfl, rfl, rfl, rfl, rfl, rfl, rfl, rfl, rfl⟩

/-- C1: For every Hill and every SkiJump with `v0 > 0` and
`cos alpha ≠ 0` whose trajectory meets the hill at a nonzero point,
`SkiJump.landing hill` returns a nonzero x-coordinate at which the
trajectory height equals the hill height, i.e.
`|SkiJump.y x - hill.y x| < 1e-6`. -/
theorem landing_finds_intersection (s : SkiJump) (hill : Hill)
    (hv : 0 < s.v0) (hc : Real.cos s.alpha ≠ 0)
    (hmeet : ∃ x : ℝ, x ≠ 0 ∧ s.yRaw x = hill.y x) :
    ∃ r : ℝ, s.landing hill = .ok r ∧ r ≠ 0 ∧ |s.y r - hill.y r| < 1e-6 := by
  obtain ⟨x0, hx0, hx0eq⟩ := hmeet
  have ha : s.coeffA ≠ 0 := ne_of_lt (coeffA_neg s (ne_of_gt hv) hc)
  have hroot0 : s.coeffA * (x0 * x0) + s.coeffB hill * x0
      + SkiJump.coeffC hill = 0 := by
    have h := yRaw_sub_hill s hill x0
    rw [hx0eq] at h
    linear_combination -h
  have hD : 0 ≤ s.disc hill := by
    have hident : s.disc hill = (2 * s.coeffA * x0 + s.coeffB hill) ^ 2 := by
      rw [SkiJump.disc]
      linear_combination (-4 * s.coeffA) * hroot0
    rw [hident]
    exact sq_nonneg _
  have hnD : ¬ s.disc hill < 0 := not_lt.2 hD
  by_cases h1 : s.root1 hill ≠ 0
  · refine ⟨s.root1 hill, ?_, h1, ?_⟩
    · rw [SkiJump.landing, if_neg ha, if_neg hnD, if_pos h1]
    · exact y_close_of_yRaw_eq s hill _ (root1_is_root s hill ha hD)
  · push_neg at h1
    have hdis : discrim s.coeffA (s.coeffB hill) (SkiJump.coeffC hill)
        = Real.sqrt (s.disc hill) * Real.sqrt (s.disc hill) :=
      (Real.mul_self_sqrt hD).symm
    have hx0or := (quadratic_eq_zero_iff ha hdis x0).1 hroot0
    have h2 : s.root2 hill ≠ 0 := by
      rcases hx0or with hcase | hcase
      · exact absurd (hcase.trans h1) hx0
      · intro hr2
        exact hx0 (hcase.trans hr2)
    refine ⟨s.root2 hill, ?_, h2, ?_⟩
    · rw [SkiJump.landing, if_neg ha, if_neg hnD, if_neg (not_ne_iff.2 h1),
        if_pos h2]
    · exact y_close_of_yRaw_eq s hill _ (root2_is_root s hill ha hD)

/-- Witness for C1 at `v0 = 1`, `alpha = 0`, `hill = Hill 0 (-1)`: the
trajectory meets the hill at `x = 2`. -/
theorem landing_finds_intersection_witness :
    (0 : ℝ) < 1 ∧ Real.cos (0 : ℝ) ≠ 0 ∧
      (∃ x : ℝ, x ≠ 0 ∧ (SkiJump.mk 1 0).yRaw x = (Hill.mk 0 (-1)).y x) ∧
      ∃ r : ℝ, (SkiJump.mk 1 0).landing (Hill.mk 0 (-1)) = .ok r ∧ r ≠ 0 ∧
        |(SkiJump.mk 1 0).y r - (Hill.mk 0 (-1)).y r| < 1e-6 := by
  have hmeet : ∃ x : ℝ, x ≠ 0 ∧ (SkiJump.mk 1 0).yRaw x = (Hill.mk 0 (-1)).y x := by
    refine ⟨2, two_ne_zero, ?_⟩
    simp only [SkiJump.yRaw, Hill.y, Real.tan_zero, Real.cos_zero,
      EARTH_GRAVITY]
    norm_num
  exact ⟨one_pos, by rw [Real.cos_zero]; exact one_ne_zero, hmeet,
    landing_finds_intersection ⟨1, 0⟩ ⟨0, -1⟩ one_pos
      (by rw [Real.cos_zero]; exact one_ne_zero) hmeet⟩

/-- C5: For every Hill and every SkiJump whose trajectory has no
non-zero real intersection with the hill, `SkiJump.landing hill` fails
with `NoIntersectionError`. -/
theorem landing_no_intersection (s : SkiJump) (hill : Hill)
    (hno : ∀ x : ℝ, x ≠ 0 → s.yRaw x ≠ hill.y x) :
    s.landing hill = .error .NoIntersectionError := by
  rw [SkiJump.landing]
  by_cases ha : s.coeffA = 0
  · rw [if_pos ha]
    by_cases hlin : s.coeffB hill ≠ 0 ∧ -SkiJump.coeffC hill / s.coeffB hill ≠ 0
    · exact absurd (linear_sol_is_root s hill ha hlin.1) (hno _ hlin.2)
    · rw [if_neg hlin]
  · rw [if_neg ha]
    by_cases hD : s.disc hill < 0
    · rw [if_pos hD]
    · rw [if_neg hD]
      have hD' := not_lt.1 hD
      have hr1 : ¬ s.root1 hill ≠ 0 := fun h1 =>
        hno _ h1 (root1_is_root s hill ha hD')
      have hr2 : ¬ s.root2 hill ≠ 0 := fun h2 =>
        hno _ h2 (root2_is_root s hill ha hD')
      rw [if_neg hr1, if_neg hr2]

/-- Witness for C5 at `v0 = 1`, `alpha = 0`, `hill = Hill 2 0`: the
flat trajectory `-x^2/2` never reaches the raised flat hill at height
`2`. -/
theorem landing_no_intersection_witness :
    (∀ x : ℝ, x ≠ 0 → (SkiJump.mk 1 0).yRaw x ≠ (Hill.mk 2 0).y x) ∧
      (SkiJump.mk 1 0).landing (Hill.mk 2 0) = .error .NoIntersectionError := by
  have hno : ∀ x : ℝ, x ≠ 0 → (SkiJump.mk 1 0).yRaw x ≠ (Hill.mk 2 0).y x := by
    intro x hx
    simp only [SkiJump.yRaw, Hill.y, Real.tan_zero, Real.cos_zero,
      EARTH_GRAVITY]
    intro heq
    nlinarith [sq_nonneg x]
  exact ⟨hno, landing_no_intersection ⟨1, 0⟩ ⟨2, 0⟩ hno⟩

/-- Concrete landing computation: with `v0 = 1`, `alpha = 0` and the
hill `y = -x`, the landing point is `x = 2`. -/
theorem landing_example :
    (SkiJump.mk 1 0).landing (Hill.mk 0 (-1)) = .ok 2 := by
  have hA : (SkiJump.mk 1 0).coeffA = -(1 / 2) := by
    simp only [SkiJump.coeffA, EARTH_GRAVITY, Real.cos_zero]
    norm_num
  have hB : (SkiJump.mk 1 0).coeffB (Hill.mk 0 (-1)) = 1 := by
    simp only [SkiJump.coeffB, Real.tan_zero]
    norm_num
  have hC : SkiJump.coeffC (Hill.mk 0 (-1)) = 0 := by
    simp only [SkiJump.coeffC]
    norm_num
  have hDisc : (SkiJump.mk 1 0).disc (Hill.mk 0 (-1)) = 1 := by
    rw [SkiJump.disc, hA, hB, hC]
    norm_num
  have hr1 : (SkiJump.mk 1 0).root1 (Hill.mk 0 (-1)) = 0 := by
    rw [SkiJump.root1, hDisc, hA, hB, Real.sqrt_one]
    norm_num
  have hr2 : (SkiJump.mk 1 0).root2 (Hill.mk 0 (-1)) = 2 := by
    rw [SkiJump.root2, hDisc, hA, hB, Real.sqrt_one]
    norm_num
  rw [SkiJump.landing, if_neg (by rw [hA]; norm_num),
    if_neg (by rw [hDisc]; norm_num), if_neg (not_ne_iff.2 hr1),
    if_pos (by rw [hr2]; norm_num : (SkiJump.mk 1 0).root2 (Hill.mk 0 (-1)) ≠ 0),
    hr2]

/-- Indexing into the linspace list. -/
theorem linspace0_getElem (xL : ℝ) (n : ℤ) (i : ℕ) (hi : i < n.toNat) :
    (linspace0 xL n)[i]? = some ((i : ℝ) * xL / ((n : ℝ) - 1)) := by
  rw [linspace0, List.getElem?_map, List.getElem?_range hi, Option.map_some']

/-- Length of the linspace list. -/
theorem linspace0_length (xL : ℝ) (n : ℤ) :
    (linspace0 xL n).length = n.toNat := by
  rw [linspace0, List.length_map, List.length_range]

/-- C2 (amended): for every Hill and SkiJump whose landing succeeds
with value `xL` and every `n ≥ 2`, `SkiJump.sample hill n` returns two
parallel sequences of length exactly `n`; the first sampled point is
`(0, 0)` and the last is `(xL, y xL)`, whose height is within `1e-6` of
`hill.y xL`; and the x-values are strictly monotonic (increasing for
`xL > 0`, decreasing for `xL < 0`), evenly spaced with step
`xL / (n - 1)`, and span the closed interval between `0` and `xL`
inclusive. -/
theorem sample_spec (s : SkiJump) (hill : Hill) (n : ℤ) (xL : ℝ)
    (hL : s.landing hill = .ok xL) (hn : 2 ≤ n) :
    ∃ xs ys : List ℝ, s.sample hill n = .ok (xs, ys) ∧
      (xs.length : ℤ) = n ∧ (ys.length : ℤ) = n ∧
      xs.head? = some 0 ∧ ys.head? = some 0 ∧
      xs.getLast? = some xL ∧ ys.getLast? = some (s.y xL) ∧
      |s.y xL - hill.y xL| < 1e-6 ∧
      (∀ i : ℕ, i + 1 < xs.length → ∃ u v : ℝ,
        xs[i]? = some u ∧ xs[i + 1]? = some v ∧ v - u = xL / ((n : ℝ) - 1)) ∧
      (0 < xL → xs.Chain' (· < ·)) ∧ (xL < 0 → xs.Chain' (· > ·)) ∧
      (∀ u ∈ xs, min 0 xL ≤ u ∧ u ≤ max 0 xL) := by
  have hn0 : (0 : ℤ) ≤ n := by linarith
  have hNn : ((n.toNat : ℤ)) = n := Int.toNat_of_nonneg hn0
  have hN2 : 2 ≤ n.toNat := (Int.le_toNat hn0).2 (by exact_mod_cast hn)
  have hNR : ((n.toNat : ℝ)) = (n : ℝ) := by exact_mod_cast hNn
  have h2R : (2 : ℝ) ≤ (n : ℝ) := by exact_mod_cast hn
  have hd : (0 : ℝ) < (n : ℝ) - 1 := by linarith
  have hd0 : (n : ℝ) - 1 ≠ 0 := ne_of_gt hd
  obtain ⟨hxL0, hxLroot⟩ := landing_ok_props s hill xL hL
  have hlastidx : n.toNat - 1 < n.toNat := by omega
  have hcastsub : ((n.toNat - 1 : ℕ) : ℝ) = (n : ℝ) - 1 := by
    rw [Nat.cast_sub (by omega : 1 ≤ n.toNat), Nat.cast_one, hNR]
  have hflast : ((n.toNat - 1 : ℕ) : ℝ) * xL / ((n : ℝ) - 1) = xL := by
    rw [hcastsub, mul_comm, mul_div_assoc, div_self hd0, mul_one]
  refine ⟨linspace0 xL n, (linspace0 xL n).map s.y,
    ?_, ?_, ?_, ?_, ?_, ?_, ?_, ?_, ?_, ?_, ?_, ?_⟩
  · rw [SkiJump.sample, if_neg (by linarith : ¬ n < 1), hL]
  · rw [linspace0_length]
    exact hNn
  · rw [List.length_map, linspace0_length]
    exact hNn
  · rw [List.head?_eq_getElem?, linspace0_getElem xL n 0 (by omega)]
    norm_num
  · rw [List.head?_eq_getElem?, List.getElem?_map,
      linspace0_getElem xL n 0 (by omega), Option.map_some']
    have h00 : ((0 : ℕ) : ℝ) * xL / ((n : ℝ) - 1) = 0 := by norm_num
    rw [h00, y_zero]
  · rw [List.getLast?_eq_getElem?, linspace0_length,
      linspace0_getElem xL n (n.toNat - 1) hlastidx, hflast]
  · rw [List.getLast?_eq_getElem?, List.length_map, linspace0_length,
      List.getElem?_map, linspace0_getElem xL n (n.toNat - 1) hlastidx,
      Option.map_some', hflast]
  · exact y_close_of_yRaw_eq s hill xL hxLroot
  · intro i hi
    rw [linspace0_length] at hi
    refine ⟨(i : ℝ) * xL / ((n : ℝ) - 1), ((i + 1 : ℕ) : ℝ) * xL / ((n : ℝ) - 1),
      linspace0_getElem xL n i (by omega), linspace0_getElem xL n (i + 1) hi, ?_⟩
    push_cast
    ring
  · intro hxL
    rw [linspace0, List.chain'_map]
    obtain ⟨M, hM⟩ : ∃ M, n.toNat = M + 1 := ⟨n.toNat - 1, by omega⟩
    rw [hM]
    refine (List.chain'_range_succ _ M).2 ?_
    intro m hm
    have hpos : 0 < xL / ((n : ℝ) - 1) := div_pos hxL hd
    have key : ((m + 1 : ℕ) : ℝ) * xL / ((n : ℝ) - 1)
        - (m : ℝ) * xL / ((n : ℝ) - 1) = xL / ((n : ℝ) - 1) := by
      push_cast
      ring
    show (m : ℝ) * xL / ((n : ℝ) - 1) < ((m + 1 : ℕ) : ℝ) * xL / ((n : ℝ) - 1)
    linarith [key, hpos]
  · intro hxL
    rw [linspace0, List.chain'_map]
    obtain ⟨M, hM⟩ : ∃ M, n.toNat = M + 1 := ⟨n.toNat - 1, by omega⟩
    rw [hM]
    refine (List.chain'_range_succ _ M).2 ?_
    intro m hm
    have hneg : xL / ((n : ℝ) - 1) < 0 := div_neg_of_neg_of_pos hxL hd
    have key : ((m + 1 : ℕ) : ℝ) * xL / ((n : ℝ) - 1)
        - (m : ℝ) * xL / ((n : ℝ) - 1) = xL / ((n : ℝ) - 1) := by
      push_cast
      ring
    show (m : ℝ) * xL / ((n : ℝ) - 1) > ((m + 1 : ℕ) : ℝ) * xL / ((n : ℝ) - 1)
    linarith [key, hneg]
  · intro u hu
    rw [linspace0, List.mem_map] at hu
    obtain ⟨i, hiR, rfl⟩ := hu
    rw [List.mem_range] at hiR
    have hiled : (i : ℝ) ≤ (n : ℝ) - 1 := by
      have h1 : (i : ℝ) + 1 ≤ (n.toNat : ℝ) := by
        exact_mod_cast Nat.succ_le_of_lt hiR
      rw [hNR] at h1
      linarith
    have hi0 : (0 : ℝ) ≤ (i : ℝ) := Nat.cast_nonneg i
    rcases le_or_lt 0 xL with hxLs | hxLs
    · rw [min_eq_left hxLs, max_eq_right hxLs]
      constructor
      · exact div_nonneg (mul_nonneg hi0 hxLs) hd.le
      · rw [div_le_iff₀ hd]
        nlinarith
    · rw [min_eq_right hxLs.le, max_eq_left hxLs.le]
      constructor
      · rw [le_div_iff₀ hd]
        nlinarith
      · rw [div_le_iff₀ hd]
        nlinarith

/-- Witness for the amended C2 at `v0 = 1`, `alpha = 0`,
`hill = Hill 0 (-1)`, `n = 2`, landing point `2`. -/
theorem sample_spec_witness :
    (SkiJump.mk 1 0).landing (Hill.mk 0 (-1)) = .ok 2 ∧ (2 : ℤ) ≤ 2 ∧
      ∃ xs ys : List ℝ,
        (SkiJump.mk 1 0).sample (Hill.mk 0 (-1)) 2 = .ok (xs, ys) ∧
        (xs.length : ℤ) = 2 ∧ (ys.length : ℤ) = 2 ∧
        xs.head? = some 0 ∧ ys.head? = some 0 ∧
        xs.getLast? = some 2 ∧ ys.getLast? = some ((SkiJump.mk 1 0).y 2) ∧
        |(SkiJump.mk 1 0).y 2 - (Hill.mk 0 (-1)).y 2| < 1e-6 ∧
        (∀ i : ℕ, i + 1 < xs.length → ∃ u v : ℝ,
          xs[i]? = some u ∧ xs[i + 1]? = some v ∧
            v - u = 2 / (((2 : ℤ) : ℝ) - 1)) ∧
        ((0 : ℝ) < 2 → xs.Chain' (· < ·)) ∧
        ((2 : ℝ) < 0 → xs.Chain' (· > ·)) ∧
        (∀ u ∈ xs, min 0 2 ≤ u ∧ u ≤ max 0 2) :=
  ⟨landing_example, le_refl 2,
    sample_spec ⟨1, 0⟩ ⟨0, -1⟩ 2 2 landing_example (le_refl 2)⟩

/-- Concrete landing computation: with `v0 = 1`, `alpha = 0` and the
flat hill at height `-5e-9`, the landing point is `x = -1e-4`
(discriminant `1e-8`, square root `1e-4`). -/
theorem landing_snap_example :
    (SkiJump.mk 1 0).landing (Hill.mk (-5e-9) 0) = .ok (-1e-4) := by
  have hA : (SkiJump.mk 1 0).coeffA = -(1 / 2) := by
    simp only [SkiJump.coeffA, EARTH_GRAVITY, Real.cos_zero]
    norm_num
  have hB : (SkiJump.mk 1 0).coeffB (Hill.mk (-5e-9) 0) = 0 := by
    simp only [SkiJump.coeffB, Real.tan_zero]
    norm_num
  have hC : SkiJump.coeffC (Hill.mk (-5e-9) 0) = 5e-9 := by
    simp only [SkiJump.coeffC]
    norm_num
  have hDisc : (SkiJump.mk 1 0).disc (Hill.mk (-5e-9) 0) = 1e-8 := by
    rw [SkiJump.disc, hA, hB, hC]
    norm_num
  have hsqrt : Real.sqrt (1e-8) = 1e-4 := by
    rw [show (1e-8 : ℝ) = (1e-4) ^ 2 by norm_num, Real.sqrt_sq (by norm_num)]
  have hr1 : (SkiJump.mk 1 0).root1 (Hill.mk (-5e-9) 0) = -1e-4 := by
    rw [SkiJump.root1, hDisc, hA, hB, hsqrt]
    norm_num
  rw [SkiJump.landing, if_neg (by rw [hA]; norm_num),
    if_neg (by rw [hDisc]; norm_num),
    if_pos (by rw [hr1]; norm_num :
      (SkiJump.mk 1 0).root1 (Hill.mk (-5e-9) 0) ≠ 0),
    hr1]

/-- At the landing point `-1e-4` of `landing_snap_example` the raw
trajectory height `-5e-9` lies inside the snap band, so `y` returns
`0`. -/
theorem y_snap_example : (SkiJump.mk 1 0).y (-1e-4) = 0 := by
  have hraw : (SkiJump.mk 1 0).yRaw (-1e-4) = -5e-9 := by
    simp only [SkiJump.yRaw, Real.tan_zero, Real.cos_zero, EARTH_GRAVITY]
    norm_num
  rw [SkiJump.y, hraw, if_pos (by norm_num)]
  norm_num

/-- The two-point sample over the snap-band hill: both sampled heights
are the snapped `0`, not the hill height `-5e-9`. -/
theorem sample_snap_example :
    (SkiJump.mk 1 0).sample (Hill.mk (-5e-9) 0) 2 = .ok ([0, -1e-4], [0, 0]) := by
  have hxs : linspace0 (-1e-4) 2 = [0, -1e-4] := by
    rw [linspace0, show (2 : ℤ).toNat = 2 from rfl]
    norm_num [List.range_succ]
  rw [SkiJump.sample, if_neg (by norm_num), landing_snap_example]
  show Except.ok (linspace0 (-1e-4) 2, (linspace0 (-1e-4) 2).map (SkiJump.mk 1 0).y)
    = Except.ok ([(0 : ℝ), -1e-4], [(0 : ℝ), 0])
  rw [hxs, List.map_cons, List.map_cons, List.map_nil, y_zero, y_snap_example]

/-- C2 counterexample: the claim fails at two concrete inputs.  First,
at the positive integer `n = 1` the sample is the single point
`(0, 0)`, so with landing point `2` the first and last sampled points
are not `(0, 0)` and `(landing_x, hill.y landing_x)` in some order.
Second, at `n = 2` with the hill `Hill (-5e-9) 0`, whose height at the
landing point `-1e-4` lies inside the snap band, every sampled height
is the snapped `0`, so neither the first nor the last sampled point
carries the exact hill height `hill.y (-1e-4) = -5e-9`. -/
theorem sample_claim_counterexample :
    ((SkiJump.mk 1 0).landing (Hill.mk 0 (-1)) = .ok 2 ∧
      (SkiJump.mk 1 0).sample (Hill.mk 0 (-1)) 1 = .ok ([0], [0]) ∧
      ¬ ∃ xs ys : List ℝ,
          (SkiJump.mk 1 0).sample (Hill.mk 0 (-1)) 1 = .ok (xs, ys) ∧
          ((xs.head? = some 0 ∧ xs.getLast? = some 2) ∨
            (xs.head? = some 2 ∧ xs.getLast? = some 0))) ∧
    ((SkiJump.mk 1 0).landing (Hill.mk (-5e-9) 0) = .ok (-1e-4) ∧
      (SkiJump.mk 1 0).sample (Hill.mk (-5e-9) 0) 2 = .ok ([0, -1e-4], [0, 0]) ∧
      ¬ ∃ xs ys : List ℝ,
          (SkiJump.mk 1 0).sample (Hill.mk (-5e-9) 0) 2 = .ok (xs, ys) ∧
          (ys.head? = some ((Hill.mk (-5e-9) 0).y (-1e-4)) ∨
            ys.getLast? = some ((Hill.mk (-5e-9) 0).y (-1e-4)))) := by
  constructor
  · have hxs : linspace0 2 1 = [0] := by
      rw [linspace0]
      norm_num [List.range_succ]
    have hsample : (SkiJump.mk 1 0).sample (Hill.mk 0 (-1)) 1 = .ok ([0], [0]) := by
      rw [SkiJump.sample, if_neg (by norm_num), landing_example]
      show Except.ok (linspace0 2 1, (linspace0 2 1).map (SkiJump.mk 1 0).y)
        = Except.ok ([(0 : ℝ)], [(0 : ℝ)])
      rw [hxs, List.map_singleton, y_zero]
    refine ⟨landing_example, hsample, ?_⟩
    rintro ⟨xs, ys, heq, hor⟩
    rw [hsample, Except.ok.injEq, Prod.mk.injEq] at heq
    obtain ⟨h1, h2⟩ := heq
    rcases hor with ⟨hh, hl⟩ | ⟨hh, hl⟩
    · rw [← h1] at hl
      simp only [List.getLast?_singleton, Option.some.injEq] at hl
      norm_num at hl
    · rw [← h1] at hh
      simp only [List.head?_cons, Option.some.injEq] at hh
      norm_num at hh
  · refine ⟨landing_snap_example, sample_snap_example, ?_⟩
    rintro ⟨xs, ys, heq, hor⟩
    rw [sample_snap_example, Except.ok.injEq, Prod.mk.injEq] at heq
    obtain ⟨h1, h2⟩ := heq
    have hhill : (Hill.mk (-5e-9) 0).y (-1e-4) = -5e-9 := by
      simp only [Hill.y]
      norm_num
    rcases hor with hh | hl
    · rw [← h2, hhill] at hh
      simp only [List.head?_cons, Option.some.injEq] at hh
      norm_num at hh
    · rw [← h2, hhill] at hl
      simp only [List.getLast?_cons_cons, List.getLast?_singleton,
        Option.some.injEq] at hl
      norm_num at hl

end TopiSkiJump
